import Mathlib

/-!
Verification of the security-perimeter components of the hospital/police
shared-API services: API-key authentication, CSRF double-submit-cookie
protection, token-bucket rate limiting, PII redaction and audit-actor
derivation, and startup configuration validation.

Definitions are shallow embeddings of the Rust sources under
`src/backend/hospital-system` and `src/backend/police-system`.
-/

namespace Perimeter

/-! ## Bytes, hex, and SHA-256

`hash_for_logging` (police `utils/logging.rs`), the audit actor
(`utils/audit.rs`) and the shared-API rate-limit key all hash with SHA-256
and print lowercase hex.  SHA-256 is implemented here over `Nat` words
reduced mod `2^32`, following FIPS 180-4.
-/

/-- Reduce to a 32-bit word. -/
def w32 (n : Nat) : Nat := n % 4294967296

/-- Right rotation of a 32-bit word by `n` bits. -/
def rotr (n x : Nat) : Nat := w32 ((x >>> n) ||| (x <<< (32 - n)))

/-- SHA-256 `Ch` function. -/
def ch (x y z : Nat) : Nat := (x &&& y) ^^^ ((x ^^^ 4294967295) &&& z)

/-- SHA-256 `Maj` function. -/
def maj (x y z : Nat) : Nat := (x &&& y) ^^^ (x &&& z) ^^^ (y &&& z)

/-- SHA-256 big sigma 0. -/
def bigSigma0 (x : Nat) : Nat := rotr 2 x ^^^ rotr 13 x ^^^ rotr 22 x

/-- SHA-256 big sigma 1. -/
def bigSigma1 (x : Nat) : Nat := rotr 6 x ^^^ rotr 11 x ^^^ rotr 25 x

/-- SHA-256 small sigma 0. -/
def smallSigma0 (x : Nat) : Nat := rotr 7 x ^^^ rotr 18 x ^^^ (x >>> 3)

/-- SHA-256 small sigma 1. -/
def smallSigma1 (x : Nat) : Nat := rotr 17 x ^^^ rotr 19 x ^^^ (x >>> 10)

/-- The 64 SHA-256 round constants of FIPS 180-4 (decimal notation). -/
def sha256K : List Nat :=
  [1116352408, 1899447441, 3049323471, 3921009573,
   961987163, 1508970993, 2453635748, 2870763221,
   3624381080, 310598401, 607225278, 1426881987,
   1925078388, 2162078206, 2614888103, 3248222580,
   3835390401, 4022224774, 264347078, 604807628,
   770255983, 1249150122, 1555081692, 1996064986,
   2554220882, 2821834349, 2952996808, 3210313671,
   3336571891, 3584528711, 113926993, 338241895,
   666307205, 773529912, 1294757372, 1396182291,
   1695183700, 1986661051, 2177026350, 2456956037,
   2730485921, 2820302411, 3259730800, 3345764771,
   3516065817, 3600352804, 4094571909, 275423344,
   430227734, 506948616, 659060556, 883997877,
   958139571, 1322822218, 1537002063, 1747873779,
   1955562222, 2024104815, 2227730452, 2361852424,
   2428436474, 2756734187, 3204031479, 3329325298]

/-- SHA-256 working state: eight 32-bit words. -/
structure Sha256State where
  a : Nat
  b : Nat
  c : Nat
  d : Nat
  e : Nat
  f : Nat
  g : Nat
  h : Nat
deriving DecidableEq, Repr

/-- The SHA-256 initial hash value of FIPS 180-4 (decimal notation). -/
def sha256Init : Sha256State :=
  ⟨1779033703, 3144134277, 1013904242, 2773480762,
   1359893119, 2600822924, 528734635, 1541459225⟩

/-- One SHA-256 compression round: `kw` is the pair of round constant and
message-schedule word. -/
def sha256Round (s : Sha256State) (kw : Nat × Nat) : Sha256State :=
  let t1 := w32 (s.h + bigSigma1 s.e + ch s.e s.f s.g + kw.1 + kw.2)
  let t2 := w32 (bigSigma0 s.a + maj s.a s.b s.c)
  ⟨w32 (t1 + t2), s.a, s.b, s.c, w32 (s.d + t1), s.e, s.f, s.g⟩

/-- Group bytes into 32-bit big-endian words. -/
def wordsOfBytes : List Nat → List Nat
  | b0 :: b1 :: b2 :: b3 :: rest =>
      (b0 * 16777216 + b1 * 65536 + b2 * 256 + b3) :: wordsOfBytes rest
  | _ => []

/-- Extend a 16-word block schedule by `k` further words. -/
def extendSchedule : Nat → List Nat → List Nat
  | 0, ws => ws
  | k + 1, ws =>
      let n := ws.length
      let w16 := ws.getD (n - 16) 0
      let w15 := ws.getD (n - 15) 0
      let w7 := ws.getD (n - 7) 0
      let w2 := ws.getD (n - 2) 0
      extendSchedule k (ws ++ [w32 (smallSigma1 w2 + w7 + smallSigma0 w15 + w16)])

/-- SHA-256 compression of one 64-byte chunk into the running hash. -/
def sha256Compress (H : Sha256State) (chunk : List Nat) : Sha256State :=
  let ws := extendSchedule 48 (wordsOfBytes chunk)
  let s := (sha256K.zip ws).foldl sha256Round H
  ⟨w32 (H.a + s.a), w32 (H.b + s.b), w32 (H.c + s.c), w32 (H.d + s.d),
   w32 (H.e + s.e), w32 (H.f + s.f), w32 (H.g + s.g), w32 (H.h + s.h)⟩

/-- The message length in bits as eight big-endian bytes. -/
def beBytes8 (n : Nat) : List Nat :=
  [n / 72057594037927936 % 256, n / 281474976710656 % 256, n / 1099511627776 % 256,
   n / 4294967296 % 256, n / 16777216 % 256, n / 65536 % 256, n / 256 % 256, n % 256]

/-- SHA-256 padding: a 0x80 byte, zeros to 56 mod 64, then the bit length. -/
def padMessage (ms : List Nat) : List Nat :=
  let L := ms.length
  let zeros := (64 - (L + 9) % 64) % 64
  ms ++ 128 :: (List.replicate zeros 0 ++ beBytes8 (8 * L))

/-- Fold the compression function over successive 64-byte chunks; `fuel`
bounds the recursion and is instantiated with the message length. -/
def processChunks : Nat → Sha256State → List Nat → Sha256State
  | 0, H, _ => H
  | _ + 1, H, [] => H
  | fuel + 1, H, ms => processChunks fuel (sha256Compress H (ms.take 64)) (ms.drop 64)

/-- A 32-bit word as four big-endian bytes. -/
def wordBytes (w : Nat) : List Nat := [w / 16777216 % 256, w / 65536 % 256, w / 256 % 256, w % 256]

/-- SHA-256 digest of a byte sequence: 32 bytes. -/
def sha256Bytes (ms : List Nat) : List Nat :=
  let padded := padMessage ms
  let s := processChunks padded.length sha256Init padded
  wordBytes s.a ++ wordBytes s.b ++ wordBytes s.c ++ wordBytes s.d ++
  wordBytes s.e ++ wordBytes s.f ++ wordBytes s.g ++ wordBytes s.h

/-- UTF-8 encoding of one character. -/
def utf8Bytes (c : Char) : List Nat :=
  let n := c.toNat
  if n < 128 then [n]
  else if n < 2048 then [192 + n / 64, 128 + n % 64]
  else if n < 65536 then [224 + n / 4096, 128 + n / 64 % 64, 128 + n % 64]
  else [240 + n / 262144, 128 + n / 4096 % 64, 128 + n / 64 % 64, 128 + n % 64]

/-- UTF-8 bytes of a string, as `Nat`s below 256. -/
def strBytes (s : String) : List Nat := s.data.flatMap utf8Bytes

/-- Lowercase hex digit for a value below 16, as the Rust `{:x}` formatter
writes them: the digit characters, then the letters from `a`. -/
def hexDigitChar (n : Nat) : Char :=
  if n < 10 then Char.ofNat (48 + n) else if n < 16 then Char.ofNat (87 + n) else '0'

/-- Lowercase hex rendering of a byte list, two digits per byte, as produced
by the Rust formatter on a digest. -/
def bytesToHexChars : List Nat → List Char
  | [] => []
  | b :: bs => hexDigitChar (b / 16) :: hexDigitChar (b % 16) :: bytesToHexChars bs

/-- The 64 lowercase hex characters of the SHA-256 digest of a string. -/
def sha256HexChars (s : String) : List Char := bytesToHexChars (sha256Bytes (strBytes s))

/-- Police `utils/logging.rs` `hash_for_logging`: the first 16 hex characters
of the SHA-256 digest of the personal id. -/
def hash_for_logging (personal_id : String) : String :=
  String.mk ((sha256HexChars personal_id).take 16)

/-! ## Constant-time comparison

Both auth middlewares (`subtle::ct_eq` in the police system, the
`constant_time_eq` crate in the hospital system) and the police CSRF guard
compare secrets byte-for-byte, reporting unequal lengths as unequal.  Only
the comparator's value is modelled here; its timing is not.  UTF-8 encoding
is injective, so equality of the encoded bytes is modelled as string
equality after the length check. -/
def constant_time_eq (a b : String) : Bool :=
  if (strBytes a).length != (strBytes b).length then false else a == b

/-! ## API-key authentication middleware

`ApiKeyAuthMiddleware::call` in `middleware/auth.rs` of both systems: the
`X-API-Key` header value (when present and readable as a string) is compared
in constant time against the configured key; a match forwards the request to
the wrapped service, anything else answers 401 without invoking it. -/

/-- An HTTP rejection as the auth middleware builds it: status code and the
string in the JSON body's error field. -/
structure ErrorResponse where
  status : Nat
  error : String
deriving DecidableEq, Repr

/-- Outcome of the API-key middleware: forward to the inner handler, or
reject with a response (the handler is never invoked). -/
inductive AuthResult where
  | handler : AuthResult
  | reject : ErrorResponse → AuthResult
deriving DecidableEq, Repr

/-- `ApiKeyAuthMiddleware::call` (hospital and police `middleware/auth.rs`):
`provided` is the X-API-Key header when present. -/
def apiKeyAuthCall (api_key : String) (provided : Option String) : AuthResult :=
  match provided with
  | some key =>
      if constant_time_eq key api_key then .handler
      else .reject ⟨401, "Invalid API key"⟩
  | none => .reject ⟨401, "API key required"⟩

/-! ## CSRF protection middleware (police `middleware/csrf.rs`) -/

/-- The parts of a request the CSRF middleware inspects. -/
structure CsrfRequest where
  method : String
  path : String
  cookie : Option String
  header : Option String
deriving DecidableEq, Repr

/-- A 403 rejection from the CSRF middleware: status, error message and the
machine-readable code field. -/
structure CsrfReject where
  status : Nat
  error : String
  code : String
deriving DecidableEq, Repr

/-- Outcome of the CSRF middleware: forward to the wrapped service — the
Boolean records whether a fresh token cookie was generated and attached —
or reject. -/
inductive CsrfResult where
  | handler : Bool → CsrfResult
  | reject : CsrfReject → CsrfResult
deriving DecidableEq, Repr

/-- Whether the first list is an initial segment of the second. -/
def isPrefixList : List Char → List Char → Bool
  | [], _ => true
  | _ :: _, [] => false
  | p :: ps, c :: cs => p == c && isPrefixList ps cs

/-- `str::starts_with`, over the characters (equivalent to the byte view:
UTF-8 byte prefixes of whole strings are exactly character prefixes). -/
def strStartsWith (s pre : String) : Bool := isPrefixList pre.data s.data

/-- `should_skip_csrf_check` (police `middleware/csrf.rs`): GET requests,
the health endpoint and the shared API skip CSRF validation. -/
def should_skip_csrf_check (method path : String) : Bool :=
  method == "GET" || path == "/health" || strStartsWith path "/api/shared/"

/-- `CsrfProtectionMiddleware::call`: exempt requests are forwarded (GETs
additionally receive a fresh token cookie); otherwise the `csrf_token`
cookie and `x-csrf-token` header must both be present and constant-time
equal, with a distinct 403 code for each failure. -/
def csrfCall (r : CsrfRequest) : CsrfResult :=
  if should_skip_csrf_check r.method r.path then
    .handler (r.method == "GET")
  else
    match r.cookie, r.header with
    | some cookie, some header =>
        if constant_time_eq cookie header then .handler false
        else .reject ⟨403, "CSRF token validation failed", "CSRF_TOKEN_INVALID"⟩
    | none, _ => .reject ⟨403, "CSRF token missing", "CSRF_TOKEN_MISSING"⟩
    | some _, none =>
        .reject ⟨403, "CSRF token required in X-CSRF-Token header", "CSRF_HEADER_MISSING"⟩

/-! ## Token-bucket rate limiting

The repository configures its limiters in `middleware/rate_limit.rs` of both
systems (`configure_rate_limiter`, `configure_shared_api_rate_limiter`) but
the bucket algorithm itself lives in the external `governor` crate, outside
the sources.  The per-request step is therefore modelled from the spec. -/

/-- Modelled from the spec: per-key token-bucket state
`(capacity, tokens, last_refill)` with a refill rate; the bucket
implementation is missing from the sources (only its configuration is
present), so the state is taken from §3 of the spec.  Rationals stand in
for the implementation's non-negative clock and token quantities. -/
structure TokenBucket where
  burst_capacity : ℚ
  refill_rate : ℚ
  tokens : ℚ
  last_refill : ℚ
deriving DecidableEq, Repr

/-- Modelled from the spec: "compute elapsed time since `last_refill`; add
`elapsed * refill_rate` tokens capped at `burst_capacity`". -/
def refillBucket (b : TokenBucket) (now : ℚ) : TokenBucket :=
  { b with
    tokens := min (b.tokens + (now - b.last_refill) * b.refill_rate) b.burst_capacity,
    last_refill := now }

/-- A rate-limit admission decision; denial carries HTTP 429. -/
inductive RateDecision where
  | allow : RateDecision
  | deny429 : RateDecision
deriving DecidableEq, Repr

/-- Modelled from the spec: "if `tokens ≥ 1`, subtract 1 and `Allow`; else
`Deny(RateLimited)`" after refilling; a denial consumes nothing. -/
def bucketRequest (b : TokenBucket) (now : ℚ) : RateDecision × TokenBucket :=
  if 1 ≤ (refillBucket b now).tokens then
    (.allow, { refillBucket b now with tokens := (refillBucket b now).tokens - 1 })
  else
    (.deny429, refillBucket b now)

/-- A bucket at full burst capacity, as created on first request for a key. -/
def fullBucket (C : Nat) (r t0 : ℚ) : TokenBucket := ⟨C, r, C, t0⟩

/-- The bucket after `n` requests, all issued at time `now`. -/
def consume (b : TokenBucket) (now : ℚ) : Nat → TokenBucket
  | 0 => b
  | n + 1 => (bucketRequest (consume b now n) now).2

/-! ## PII redaction: in-text masking (hospital `middleware/sanitize_logs.rs`)

`sanitize_personal_id` rewrites every occurrence of the regex
`\d{8}-\d{4}` to the first eight BYTES of the match followed by `-****`
(the source slices `&full_match[..8]`).  The regex is embedded as a scanner
over the character list; `\d` is the crate's default Unicode-aware class,
the decimal-digit category Nd, embedded below as its code-point ranges.
Byte-slicing a `str` at a position inside a character panics in Rust; the
scanner returns `none` for that case. -/

/-- The code-point ranges of the Unicode decimal-digit category Nd
(Unicode 14.0), which is what `\d` matches under the regex crate's default
Unicode mode. -/
def ndRanges : List (Nat × Nat) :=
  [(48, 57), (1632, 1641), (1776, 1785), (1984, 1993), (2406, 2415),
   (2534, 2543), (2662, 2671), (2790, 2799), (2918, 2927), (3046, 3055),
   (3174, 3183), (3302, 3311), (3430, 3439), (3558, 3567), (3664, 3673),
   (3792, 3801), (3872, 3881), (4160, 4169), (4240, 4249), (6112, 6121),
   (6160, 6169), (6470, 6479), (6608, 6617), (6784, 6793), (6800, 6809),
   (6992, 7001), (7088, 7097), (7232, 7241), (7248, 7257), (42528, 42537),
   (43216, 43225), (43264, 43273), (43472, 43481), (43504, 43513), (43600, 43609),
   (44016, 44025), (65296, 65305), (66720, 66729), (68912, 68921), (69734, 69743),
   (69872, 69881), (69942, 69951), (70096, 70105), (70384, 70393), (70736, 70745),
   (70864, 70873), (71248, 71257), (71360, 71369), (71472, 71481), (71904, 71913),
   (72016, 72025), (72784, 72793), (73040, 73049), (73120, 73129), (92768, 92777),
   (92864, 92873), (93008, 93017), (120782, 120831), (123200, 123209), (123632, 123641),
   (125264, 125273), (130032, 130041)]

/-- Whether a character is a Unicode decimal digit (regex `\d`). -/
def isNdDigit (c : Char) : Bool :=
  ndRanges.any fun r => r.1 ≤ c.toNat && c.toNat ≤ r.2

/-- Consume exactly `n` leading `\d` digits, returning them and the
remainder. -/
def takeDigits : Nat → List Char → Option (List Char × List Char)
  | 0, cs => some ([], cs)
  | _ + 1, [] => none
  | n + 1, c :: cs =>
      if isNdDigit c then
        match takeDigits n cs with
        | some (ds, rest) => some (c :: ds, rest)
        | none => none
      else none

/-- Match `\d{8}-\d{4}` at the head of the list; on success return the full
thirteen matched characters and the remainder after the match. -/
def matchPidAt (cs : List Char) : Option (List Char × List Char) :=
  match takeDigits 8 cs with
  | none => none
  | some (d8, rest1) =>
      match rest1 with
      | [] => none
      | ch :: rest2 =>
          if ch = '-' then
            match takeDigits 4 rest2 with
            | none => none
            | some (d4, rest3) => some (d8 ++ '-' :: d4, rest3)
          else none

/-- The first `n` bytes of a character sequence as whole characters:
`some` of the characters exactly covering `n` bytes, or `none` when byte
`n` falls past the end or inside a character — where Rust byte-slicing a
`str` (the source's `&full_match[..8]`) panics. -/
def takeBytesAsChars : Nat → List Char → Option (List Char)
  | 0, _ => some []
  | _ + 1, [] => none
  | n + 1, c :: cs =>
      if (utf8Bytes c).length ≤ n + 1 then
        match takeBytesAsChars (n + 1 - (utf8Bytes c).length) cs with
        | some ds => some (c :: ds)
        | none => none
      else none

/-- `takeDigits` consumes exactly `n` characters when it succeeds. -/
theorem takeDigits_length :
    ∀ (n : Nat) (cs ds rest : List Char),
      takeDigits n cs = some (ds, rest) → rest.length + n = cs.length := by
  intro n
  induction n with
  | zero =>
    intro cs ds rest h
    simp only [takeDigits, Option.some.injEq, Prod.mk.injEq] at h
    rw [← h.2]
    simp
  | succ n ih =>
    intro cs ds rest h
    match cs with
    | [] => simp [takeDigits] at h
    | c :: cs0 =>
      simp only [takeDigits] at h
      by_cases hd : isNdDigit c
      · rw [if_pos hd] at h
        cases htd : takeDigits n cs0 with
        | none => rw [htd] at h; simp at h
        | some v =>
          obtain ⟨ds0, rest0⟩ := v
          rw [htd] at h
          simp only [Option.some.injEq, Prod.mk.injEq] at h
          have hlen := ih cs0 ds0 rest0 htd
          rw [← h.2]
          simp only [List.length_cons]
          omega
      · rw [if_neg hd] at h
        simp at h

/-- A successful pid match consumes exactly 13 characters. -/
theorem matchPidAt_length {cs matched rest : List Char}
    (h : matchPidAt cs = some (matched, rest)) : rest.length + 13 = cs.length := by
  unfold matchPidAt at h
  split at h
  · simp at h
  · rename_i ds8 rest1 h8
    split at h
    · simp at h
    · rename_i ch rest2
      split at h
      · split at h
        · simp at h
        · rename_i ds4 rest3 h4
          simp only [Option.some.injEq, Prod.mk.injEq] at h
          have hl8 := takeDigits_length 8 cs ds8 (ch :: rest2) h8
          have hl4 := takeDigits_length 4 rest2 ds4 rest3 h4
          rw [← h.2]
          simp only [List.length_cons] at hl8
          omega
      · simp at h

/-- Rewrite every pid occurrence, scanning left to right as
`Regex::replace_all` does: at each position try the pattern; on a match
emit the first eight bytes of the match (`none` for the whole scan when
that byte position splits a character, where the source panics) and the
mask, resume after the match; otherwise keep the character.  The `fuel`
argument makes the recursion structural; it is instantiated with the list
length, which never runs out (a match consumes 13 characters but fuel only
ticks by one). -/
def sanitizeCharsFuel : Nat → List Char → Option (List Char)
  | 0, cs => some cs
  | _ + 1, [] => some []
  | fuel + 1, c :: cs =>
      match matchPidAt (c :: cs) with
      | some (matched, rest) =>
          match takeBytesAsChars 8 matched with
          | none => none
          | some date_part =>
              match sanitizeCharsFuel fuel rest with
              | none => none
              | some tail => some (date_part ++ '-' :: '*' :: '*' :: '*' :: '*' :: tail)
      | none =>
          match sanitizeCharsFuel fuel cs with
          | none => none
          | some tail => some (c :: tail)

/-- The pid-masking scan over a character list; `none` models a panic. -/
def sanitizeChars (cs : List Char) : Option (List Char) := sanitizeCharsFuel cs.length cs

/-- Hospital `sanitize_logs.rs` `sanitize_personal_id`; `none` models the
panic of the byte slice `&full_match[..8]` on a non-boundary position. -/
def sanitize_personal_id (message : String) : Option String :=
  (sanitizeChars message.data).map String.mk

/-- The scan does not depend on the fuel once it covers the list length. -/
theorem sanitizeCharsFuel_irrel :
    ∀ (fuel fuel2 : Nat) (cs : List Char), cs.length ≤ fuel → cs.length ≤ fuel2 →
      sanitizeCharsFuel fuel cs = sanitizeCharsFuel fuel2 cs := by
  intro fuel
  induction fuel with
  | zero =>
    intro fuel2 cs h1 _
    have hnil : cs = [] := List.eq_nil_of_length_eq_zero (Nat.le_zero.mp h1)
    subst hnil
    cases fuel2 <;> rfl
  | succ fuel ih =>
    intro fuel2 cs h1 h2
    cases cs with
    | nil => cases fuel2 <;> rfl
    | cons c cs0 =>
      cases fuel2 with
      | zero => exact absurd h2 (by simp)
      | succ fuel2 =>
        simp only [List.length_cons] at h1 h2
        simp only [sanitizeCharsFuel]
        cases hm : matchPidAt (c :: cs0) with
        | none =>
          rw [ih fuel2 cs0 (by omega) (by omega)]
        | some v =>
          obtain ⟨matched, rest⟩ := v
          have hlen := matchPidAt_length hm
          simp only [List.length_cons] at hlen
          show (match takeBytesAsChars 8 matched with
              | none => none
              | some date_part =>
                  match sanitizeCharsFuel fuel rest with
                  | none => none
                  | some tail =>
                      some (date_part ++ '-' :: '*' :: '*' :: '*' :: '*' :: tail)) =
            (match takeBytesAsChars 8 matched with
              | none => none
              | some date_part =>
                  match sanitizeCharsFuel fuel2 rest with
                  | none => none
                  | some tail =>
                      some (date_part ++ '-' :: '*' :: '*' :: '*' :: '*' :: tail))
          rw [ih fuel2 rest (by omega) (by omega)]

/-- Whether the pid pattern matches anywhere in the list. -/
def hasPidMatch : List Char → Bool
  | [] => false
  | c :: cs => (matchPidAt (c :: cs)).isSome || hasPidMatch cs

/-- The sixteen lowercase hex digits. -/
def hexAlphabet : List Char := (List.range 16).map hexDigitChar

/-! ## Audit actor derivation (police `utils/audit.rs`) -/

/-- `extract_actor_from_request`: hash the presented X-API-Key with SHA-256
and keep the first 24 bytes of `api_key:` followed by the 64 hex digits —
that is, `api_key:` plus the first 16 hex characters; an absent header
yields the sentinel "internal". -/
def extract_actor_from_request (apiKeyHeader : Option String) : String :=
  match apiKeyHeader with
  | some key => String.mk (("api_key:".data ++ sha256HexChars key).take 24)
  | none => "internal"

/-! ## Startup configuration (hospital `config.rs`) -/

/-- The configuration record `Config` of hospital `config.rs`. -/
structure Config where
  database_url : String
  server_port : String
  api_key : String
  allowed_origins : List String
  rate_limit_per_minute : Nat
  enable_tls : Bool
  tls_cert_path : Option String
  tls_key_path : Option String
  shared_api_rate_limit_per_second : Nat
  shared_api_rate_limit_burst : Nat
deriving DecidableEq, Repr

/-- Rust `str::parse::<bool>`: accepts exactly "true" and "false". -/
def parseBool (s : String) : Option Bool :=
  if s = "true" then some true else if s = "false" then some false else none

/-- Rust `str::split` on a separator character, over the characters. -/
def splitOnChar (sep : Char) : List Char → List (List Char)
  | [] => [[]]
  | c :: cs =>
      if c = sep then [] :: splitOnChar sep cs
      else
        match splitOnChar sep cs with
        | [] => [[c]]
        | g :: gs => (c :: g) :: gs

/-- Rust `str::trim`, over the characters: whitespace stripped from both
ends (the ASCII whitespace relevant to origin strings). -/
def trimChars (cs : List Char) : List Char :=
  ((cs.dropWhile Char.isWhitespace).reverse.dropWhile Char.isWhitespace).reverse

/-- Rust `str::parse::<u64>` modelled on `Nat`: decimal digits only. -/
def parseNat (s : String) : Option Nat :=
  if s.data.isEmpty then none
  else if s.data.all (fun c => c.isDigit) then
    some (s.data.foldl (fun n c => n * 10 + (c.toNat - 48)) 0)
  else none

/-- The ALLOWED_ORIGINS parsing: split on commas, trim, drop empties. -/
def splitOrigins (s : String) : List String :=
  ((splitOnChar ',' s.data).map (fun g => String.mk (trimChars g))).filter (fun t => t != "")

/-- Hospital `Config::from_env`, over an abstract process environment; the
`?`-style early returns of the Rust are written as nested matches.  Numeric
parses model `u64`/`u32` on `Nat`; `api_key.len()` is the UTF-8 byte
length, as in Rust. -/
def Config.from_env (env : String → Option String) : Except String Config :=
  match env "DATABASE_URL" with
  | none => .error "DATABASE_URL must be set"
  | some database_url =>
    match env "API_KEY" with
    | none => .error "API_KEY must be set for security"
    | some api_key =>
      if (strBytes api_key).length < 32 then
        .error "API_KEY must be at least 32 characters long"
      else
        let allowed_origins := splitOrigins ((env "ALLOWED_ORIGINS").getD
          "http://localhost:8000,http://localhost:3000,http://127.0.0.1:8000,http://127.0.0.1:3000")
        if allowed_origins = [] then
          .error "ALLOWED_ORIGINS must contain at least one valid origin"
        else
          let enable_tls := (parseBool ((env "ENABLE_TLS").getD "false")).getD false
          let tls_cert_path := env "TLS_CERT_PATH"
          let tls_key_path := env "TLS_KEY_PATH"
          if enable_tls && (tls_cert_path.isNone || tls_key_path.isNone) then
            .error "TLS_CERT_PATH and TLS_KEY_PATH must be set when ENABLE_TLS=true"
          else
            .ok ⟨database_url, (env "SERVER_PORT").getD "8001", api_key, allowed_origins,
              (parseNat ((env "RATE_LIMIT_REQUESTS_PER_MINUTE").getD "60")).getD 60,
              enable_tls, tls_cert_path, tls_key_path,
              (parseNat ((env "SHARED_API_RATE_LIMIT_PER_SECOND").getD "1")).getD 1,
              (parseNat ((env "SHARED_API_RATE_LIMIT_BURST").getD "5")).getD 5⟩

/-- A concrete environment with a too-short API key, for the C9 witness. -/
def shortKeyEnv : String → Option String := fun name =>
  if name = "DATABASE_URL" then some "postgres://localhost/hospital"
  else if name = "API_KEY" then some "short"
  else none

/-- An arbitrary concrete configuration value, for the C9 witness. -/
def someConfig : Config :=
  ⟨"db", "8001", "k", ["https://a.example"], 60, false, none, none, 1, 5⟩

/-- An environment whose API key has 17 characters but 34 UTF-8 bytes —
under 32 characters yet not under 32 bytes — for the C9 counterexample. -/
def wideKeyEnv : String → Option String := fun name =>
  if name = "DATABASE_URL" then some "postgres://localhost/hospital"
  else if name = "API_KEY" then some "ååååååååååååååååå"
  else none

end Perimeter

namespace Perimeter

/-- The constant-time comparator agrees with equality: the length check only
short-circuits cases where the strings already differ. -/
theorem constant_time_eq_iff (a b : String) : constant_time_eq a b = true ↔ a = b := by
  unfold constant_time_eq
  by_cases h : (strBytes a).length = (strBytes b).length
  · simp [h]
  · simp [h]
    intro hab
    exact absurd (congrArg (fun s => (strBytes s).length) hab) h

/-- The comparator accepts equal strings. -/
theorem constant_time_eq_self (a : String) : constant_time_eq a a = true :=
  (constant_time_eq_iff a a).mpr rfl

/-- The comparator rejects unequal strings. -/
theorem constant_time_eq_ne {a b : String} (h : a ≠ b) : constant_time_eq a b = false := by
  cases hcmp : constant_time_eq a b
  · rfl
  · exact absurd ((constant_time_eq_iff a b).mp hcmp) h

/-- Non-GET requests outside the exempt paths do not skip CSRF validation. -/
theorem should_skip_csrf_check_eq_false (m p : String) (hm : m ≠ "GET")
    (hh : p ≠ "/health") (hs : strStartsWith p "/api/shared/" = false) :
    should_skip_csrf_check m p = false := by
  simp [should_skip_csrf_check, hm, hh, hs]

/-- C1: for every inbound shared-API request, the authenticator invokes the
inner handler iff the X-API-Key header is present and equal to the configured
key; when the header is absent or unequal, the request is rejected with an
HTTP 401 response and the handler is never invoked. -/
theorem apiKeyAuth_decision (api_key : String) (provided : Option String) :
    (apiKeyAuthCall api_key provided = .handler ↔ provided = some api_key) ∧
    (provided ≠ some api_key →
      ∃ body, apiKeyAuthCall api_key provided = .reject ⟨401, body⟩) := by
  constructor
  · constructor
    · intro h
      cases provided with
      | none => simp [apiKeyAuthCall] at h
      | some key =>
        by_cases hk : key = api_key
        · rw [hk]
        · simp [apiKeyAuthCall, constant_time_eq_ne hk] at h
    · intro h
      rw [h]
      simp [apiKeyAuthCall, constant_time_eq_self]
  · intro h
    cases provided with
    | none => exact ⟨"API key required", rfl⟩
    | some key =>
      have hk : key ≠ api_key := fun hc => h (by rw [hc])
      exact ⟨"Invalid API key", by simp [apiKeyAuthCall, constant_time_eq_ne hk]⟩

/-- Witness for C1 at a concrete configured key, matching and mismatching
header values. -/
theorem apiKeyAuth_decision_witness :
    apiKeyAuthCall "k0k1k2k3" (some "k0k1k2k3") = .handler ∧
    apiKeyAuthCall "k0k1k2k3" (some "wrong") ≠ .handler :=
  ⟨(apiKeyAuth_decision "k0k1k2k3" (some "k0k1k2k3")).1.mpr rfl,
   fun hc => absurd ((apiKeyAuth_decision "k0k1k2k3" (some "wrong")).1.mp hc) (by decide)⟩

/-- C2 counterexample: the rejection response for a present-but-wrong key and
the one for an absent key are not identical — both are 401 but the bodies
differ ("Invalid API key" vs "API key required"). -/
theorem apiKeyAuth_reject_responses_differ :
    apiKeyAuthCall "configured-key-0123456789abcdef0" (some "wrong-key") ≠
      apiKeyAuthCall "configured-key-0123456789abcdef0" none := by decide

/-- C2 amended: both rejection cases answer HTTP 401, but with distinct
generic bodies — a missing header yields "API key required" and a
mismatching key yields "Invalid API key"; only the 401 status is shared. -/
theorem apiKeyAuth_reject_shapes (api_key k : String) (hk : k ≠ api_key) :
    apiKeyAuthCall api_key none = .reject ⟨401, "API key required"⟩ ∧
    apiKeyAuthCall api_key (some k) = .reject ⟨401, "Invalid API key"⟩ := by
  exact ⟨rfl, by simp [apiKeyAuthCall, constant_time_eq_ne hk]⟩

/-- Witness for the amended C2 at a concrete configured key and wrong key. -/
theorem apiKeyAuth_reject_shapes_witness :
    apiKeyAuthCall "abcd" none = .reject ⟨401, "API key required"⟩ ∧
    apiKeyAuthCall "abcd" (some "x") = .reject ⟨401, "Invalid API key"⟩ :=
  apiKeyAuth_reject_shapes "abcd" "x" (by decide)

/-- C3: decision table of the CSRF guard on state-changing (non-GET,
non-exempt) requests — missing cookie gives 403 CSRF_TOKEN_MISSING, present
cookie with missing header gives 403 CSRF_HEADER_MISSING, both present but
unequal gives 403 CSRF_TOKEN_INVALID, both present and equal forwards to the
handler; the three failure codes are pairwise distinct. -/
theorem csrf_decision_table (m p : String) (hm : m ≠ "GET") (hh : p ≠ "/health")
    (hs : strStartsWith p "/api/shared/" = false) (c hdr : String) (hne : c ≠ hdr)
    (anyHeader : Option String) :
    csrfCall ⟨m, p, none, anyHeader⟩ =
      .reject ⟨403, "CSRF token missing", "CSRF_TOKEN_MISSING"⟩ ∧
    csrfCall ⟨m, p, some c, none⟩ =
      .reject ⟨403, "CSRF token required in X-CSRF-Token header", "CSRF_HEADER_MISSING"⟩ ∧
    csrfCall ⟨m, p, some c, some hdr⟩ =
      .reject ⟨403, "CSRF token validation failed", "CSRF_TOKEN_INVALID"⟩ ∧
    csrfCall ⟨m, p, some c, some c⟩ = .handler false ∧
    ("CSRF_TOKEN_MISSING" : String) ≠ "CSRF_HEADER_MISSING" ∧
    ("CSRF_TOKEN_MISSING" : String) ≠ "CSRF_TOKEN_INVALID" ∧
    ("CSRF_HEADER_MISSING" : String) ≠ "CSRF_TOKEN_INVALID" := by
  have hskip := should_skip_csrf_check_eq_false m p hm hh hs
  refine ⟨?_, ?_, ?_, ?_, by decide, by decide, by decide⟩
  · cases anyHeader <;> simp [csrfCall, hskip]
  · simp [csrfCall, hskip]
  · simp [csrfCall, hskip, constant_time_eq_ne hne]
  · simp [csrfCall, hskip, constant_time_eq_self]

/-- Witness for C3 on a concrete POST request outside the exempt paths. -/
theorem csrf_decision_table_witness :
    Perimeter.csrfCall ⟨"POST", "/suspects", none, none⟩ =
      .reject ⟨403, "CSRF token missing", "CSRF_TOKEN_MISSING"⟩ ∧
    Perimeter.csrfCall ⟨"POST", "/suspects", some "tok", some "tok"⟩ = .handler false := by
  have h := csrf_decision_table "POST" "/suspects" (by decide) (by decide) (by decide)
    "tok" "other" (by decide) none
  exact ⟨h.1, h.2.2.2.1⟩

/-- C4 counterexample: on a GET request to the exempt path "/health" the
CSRF guard does not bypass the whole state machine — it generates and
attaches a fresh token cookie (the `true` flag), contrary to the claim that
exempt paths get no token cookie. -/
theorem csrf_exempt_generates_cookie_on_get :
    csrfCall ⟨"GET", "/health", none, none⟩ = .handler true := by decide

/-- C4 amended: requests to "/health" or paths under "/api/shared/" are
always forwarded to the handler without any cookie/header requirement or
validation, for every method; however a fresh token cookie is still
generated exactly when the method is GET (cookie generation is keyed on the
method, not on the path exemption). -/
theorem csrf_exempt_paths (m p : String)
    (hp : p = "/health" ∨ strStartsWith p "/api/shared/" = true)
    (c hdr : Option String) :
    csrfCall ⟨m, p, c, hdr⟩ = .handler (m == "GET") := by
  have hskip : should_skip_csrf_check m p = true := by
    rcases hp with hp | hp <;> simp [should_skip_csrf_check, hp]
  simp [csrfCall, hskip]

/-- Witness for the amended C4: a POST to "/health" is forwarded with no
cookie generated. -/
theorem csrf_exempt_paths_witness :
    Perimeter.csrfCall ⟨"POST", "/health", none, none⟩ = .handler false := by
  simpa using csrf_exempt_paths "POST" "/health" (Or.inl rfl) none none

/-- C10: when both the csrf_token cookie and the x-csrf-token header are
absent on a state-changing non-exempt request, the guard reports the
missing-cookie case — 403 with code CSRF_TOKEN_MISSING, not
CSRF_HEADER_MISSING — because the cookie arm of the match is tried first. -/
theorem csrf_both_absent_reports_cookie (m p : String) (hm : m ≠ "GET")
    (hh : p ≠ "/health") (hs : strStartsWith p "/api/shared/" = false) :
    csrfCall ⟨m, p, none, none⟩ =
      .reject ⟨403, "CSRF token missing", "CSRF_TOKEN_MISSING"⟩ := by
  simp [csrfCall, should_skip_csrf_check_eq_false m p hm hh hs]

/-- Witness for C10 on a concrete POST request. -/
theorem csrf_both_absent_reports_cookie_witness :
    Perimeter.csrfCall ⟨"PUT", "/cases", none, none⟩ =
      .reject ⟨403, "CSRF token missing", "CSRF_TOKEN_MISSING"⟩ :=
  csrf_both_absent_reports_cookie "PUT" "/cases" (by decide) (by decide) (by decide)

/-- Refilling at the bucket's own `last_refill` timestamp adds nothing. -/
theorem refillBucket_now (cap r tk t0 : ℚ) (h : tk ≤ cap) :
    refillBucket ⟨cap, r, tk, t0⟩ t0 = ⟨cap, r, tk, t0⟩ := by
  simp [refillBucket, min_eq_left h]

/-- After `k ≤ C` immediate requests a full bucket holds `C - k` tokens. -/
theorem consume_fullBucket (C : Nat) (r t0 : ℚ) :
    ∀ k, k ≤ C → consume (fullBucket C r t0) t0 k = ⟨C, r, (C : ℚ) - k, t0⟩ := by
  intro k
  induction k with
  | zero => intro _; simp [consume, fullBucket]
  | succ k ih =>
    intro hk
    have hk1 : (k : ℚ) + 1 ≤ (C : ℚ) := by exact_mod_cast hk
    have hk0 : (0 : ℚ) ≤ (k : ℚ) := Nat.cast_nonneg k
    rw [consume, ih (Nat.le_of_succ_le hk)]
    unfold bucketRequest
    rw [refillBucket_now _ _ _ _ (by linarith)]
    rw [if_pos (by linarith : (1 : ℚ) ≤ (C : ℚ) - k)]
    simp only [TokenBucket.mk.injEq, true_and, and_true]
    push_cast
    ring

/-- C5 (spec-modelled): from a full bucket of burst capacity `C`, exactly
`C` consecutive immediate requests are allowed and the next is denied with
429; the denial consumes no token; after waiting `1 / refill_rate` seconds
exactly one more request is allowed (and the one after it at the same
instant is denied again). -/
theorem tokenBucket_burst (C : Nat) (r t0 : ℚ) (hC : 1 ≤ C) (hr : 0 < r) :
    (∀ k, k < C → (bucketRequest (consume (fullBucket C r t0) t0 k) t0).1 = .allow) ∧
    (bucketRequest (consume (fullBucket C r t0) t0 C) t0).1 = .deny429 ∧
    (bucketRequest (consume (fullBucket C r t0) t0 C) t0).2.tokens =
      (consume (fullBucket C r t0) t0 C).tokens ∧
    (bucketRequest (consume (fullBucket C r t0) t0 (C + 1)) (t0 + 1 / r)).1 = .allow ∧
    (bucketRequest
        (bucketRequest (consume (fullBucket C r t0) t0 (C + 1)) (t0 + 1 / r)).2
        (t0 + 1 / r)).1 = .deny429 := by
  have hCq : (1 : ℚ) ≤ (C : ℚ) := by exact_mod_cast hC
  have hfullC : consume (fullBucket C r t0) t0 C = ⟨C, r, 0, t0⟩ := by
    rw [consume_fullBucket C r t0 C le_rfl]
    simp
  have hdeny : bucketRequest ⟨(C : ℚ), r, 0, t0⟩ t0 = (.deny429, ⟨C, r, 0, t0⟩) := by
    unfold bucketRequest
    rw [refillBucket_now _ _ _ _ (by linarith)]
    rw [if_neg (by norm_num : ¬ (1 : ℚ) ≤ 0)]
  have hconsC1 : consume (fullBucket C r t0) t0 (C + 1) = ⟨C, r, 0, t0⟩ := by
    rw [consume, hfullC, hdeny]
  have hone : (t0 + 1 / r - t0) * r = 1 := by
    have hr0 : t0 + 1 / r - t0 = 1 / r := by ring
    rw [hr0, one_div, inv_mul_cancel₀ hr.ne']
  have hrefill : refillBucket ⟨(C : ℚ), r, 0, t0⟩ (t0 + 1 / r) = ⟨C, r, 1, t0 + 1 / r⟩ := by
    unfold refillBucket
    simp only [TokenBucket.mk.injEq, true_and, and_true]
    rw [zero_add, hone]
    exact min_eq_left hCq
  refine ⟨?_, ?_, ?_, ?_, ?_⟩
  · intro k hkC
    have hk1 : (k : ℚ) + 1 ≤ (C : ℚ) := by exact_mod_cast hkC
    have hk0 : (0 : ℚ) ≤ (k : ℚ) := Nat.cast_nonneg k
    rw [consume_fullBucket C r t0 k (le_of_lt hkC)]
    unfold bucketRequest
    rw [refillBucket_now _ _ _ _ (by linarith)]
    rw [if_pos (by linarith : (1 : ℚ) ≤ (C : ℚ) - k)]
  · rw [hfullC, hdeny]
  · rw [hfullC, hdeny]
  · rw [hconsC1]
    unfold bucketRequest
    rw [hrefill]
    rw [if_pos (le_refl (1 : ℚ))]
  · rw [hconsC1]
    unfold bucketRequest
    rw [hrefill]
    rw [if_pos (le_refl (1 : ℚ))]
    have hzero : (⟨(C : ℚ), r, 1, t0 + 1 / r⟩ : TokenBucket).tokens - 1 = 0 := by norm_num
    show (bucketRequest ⟨(C : ℚ), r, 1 - 1, t0 + 1 / r⟩ (t0 + 1 / r)).1 = RateDecision.deny429
    unfold bucketRequest
    rw [show (1 : ℚ) - 1 = 0 by norm_num]
    rw [refillBucket_now _ _ _ _ (by linarith)]
    rw [if_neg (by norm_num : ¬ (1 : ℚ) ≤ 0)]

/-- Witness for C5 at capacity 1, refill rate 1, start time 0. -/
theorem tokenBucket_burst_witness :
    (bucketRequest (consume (fullBucket 1 1 0) 0 0) 0).1 = .allow ∧
    (bucketRequest (consume (fullBucket 1 1 0) 0 1) 0).1 = .deny429 ∧
    (bucketRequest (consume (fullBucket 1 1 0) 0 2) (0 + 1 / 1)).1 = .allow :=
  ⟨(tokenBucket_burst 1 1 0 le_rfl one_pos).1 0 Nat.one_pos,
   (tokenBucket_burst 1 1 0 le_rfl one_pos).2.1,
   (tokenBucket_burst 1 1 0 le_rfl one_pos).2.2.2.1⟩

/-- The SHA-256 digest is 32 bytes. -/
theorem sha256Bytes_length (ms : List Nat) : (sha256Bytes ms).length = 32 := by
  simp [sha256Bytes, wordBytes]

/-- Hex rendering yields two characters per byte. -/
theorem bytesToHexChars_length (bs : List Nat) :
    (bytesToHexChars bs).length = 2 * bs.length := by
  induction bs with
  | nil => simp [bytesToHexChars]
  | cons b bs ih =>
    simp [bytesToHexChars, ih]
    ring

/-- Every output of `hexDigitChar` is a lowercase hex digit. -/
theorem hexDigitChar_mem (n : Nat) : hexDigitChar n ∈ hexAlphabet := by
  by_cases h : n < 16
  · interval_cases n <;> decide
  · have hz : hexDigitChar n = '0' := by
      unfold hexDigitChar
      rw [if_neg (by omega), if_neg (by omega)]
    rw [hz]
    decide

/-- Every character of a hex rendering is a lowercase hex digit. -/
theorem mem_bytesToHexChars {bs : List Nat} {c : Char}
    (h : c ∈ bytesToHexChars bs) : c ∈ hexAlphabet := by
  induction bs with
  | nil => simp [bytesToHexChars] at h
  | cons b bs ih =>
    simp only [bytesToHexChars, List.mem_cons] at h
    rcases h with h | h | h
    · rw [h]; exact hexDigitChar_mem _
    · rw [h]; exact hexDigitChar_mem _
    · exact ih h

set_option maxRecDepth 400000 in
/-- C6: `hash_for_logging` returns exactly the first 16 hex characters of
the SHA-256 digest of its input; it is deterministic; its output has length
16 and consists of hex digits; distinct inputs give distinct outputs unless
their 16-character SHA-256 hex prefixes collide; and on the spec's example
it returns the true SHA-256 prefix of "19850312-2398". -/
theorem hash_for_logging_spec :
    (∀ s, hash_for_logging s = String.mk ((sha256HexChars s).take 16)) ∧
    (∀ s t : String, s = t → hash_for_logging s = hash_for_logging t) ∧
    (∀ s, (hash_for_logging s).length = 16) ∧
    (∀ s, ∀ c ∈ (hash_for_logging s).data, c ∈ hexAlphabet) ∧
    (∀ s t : String, s ≠ t →
      hash_for_logging s ≠ hash_for_logging t ∨
        (sha256HexChars s).take 16 = (sha256HexChars t).take 16) ∧
    hash_for_logging "19850312-2398" = "52d2937590e3beef" := by
  have h64 : ∀ s, (sha256HexChars s).length = 64 := by
    intro s
    unfold sha256HexChars
    rw [bytesToHexChars_length, sha256Bytes_length]
  refine ⟨fun s => rfl, fun s t h => by rw [h], ?_, ?_, ?_, by decide⟩
  · intro s
    show ((sha256HexChars s).take 16).length = 16
    rw [List.length_take, h64]
    decide
  · intro s c hc
    have hc2 : c ∈ (sha256HexChars s).take 16 := hc
    exact mem_bytesToHexChars (List.mem_of_mem_take hc2)
  · intro s t _
    by_cases h : hash_for_logging s = hash_for_logging t
    · exact Or.inr (congrArg String.data h)
    · exact Or.inl h

/-- Witness for C6's determinism and collision disjunction at concrete
distinct inputs. -/
theorem hash_for_logging_spec_witness :
    hash_for_logging "a" = hash_for_logging "a" ∧
    (hash_for_logging "a" ≠ hash_for_logging "b" ∨
      (sha256HexChars "a").take 16 = (sha256HexChars "b").take 16) :=
  ⟨hash_for_logging_spec.2.1 "a" "a" rfl,
   hash_for_logging_spec.2.2.2.2.1 "a" "b" (by decide)⟩

/-- One-step unfolding of the sanitizer when no match starts here. -/
theorem sanitizeChars_cons_none {c : Char} {cs : List Char}
    (hm : matchPidAt (c :: cs) = none) :
    sanitizeChars (c :: cs) = (sanitizeChars cs).map (fun tail => c :: tail) := by
  unfold sanitizeChars
  simp only [List.length_cons, sanitizeCharsFuel, hm]
  cases sanitizeCharsFuel cs.length cs <;> rfl

/-- One-step unfolding of the sanitizer on a match whose eighth byte is a
character boundary: emit those characters and the mask, continue after the
match. -/
theorem sanitizeChars_cons_some {c : Char} {cs matched rest date_part : List Char}
    (hm : matchPidAt (c :: cs) = some (matched, rest))
    (hb : takeBytesAsChars 8 matched = some date_part) :
    sanitizeChars (c :: cs) =
      (sanitizeChars rest).map
        (fun tail => date_part ++ '-' :: '*' :: '*' :: '*' :: '*' :: tail) := by
  have hlen := matchPidAt_length hm
  simp only [List.length_cons] at hlen
  unfold sanitizeChars
  simp only [List.length_cons, sanitizeCharsFuel, hm, hb]
  rw [sanitizeCharsFuel_irrel cs.length rest.length rest (by omega) (by omega)]
  cases sanitizeCharsFuel rest.length rest <;> rfl

/-- One-step unfolding of the sanitizer on a match whose eighth byte splits
a character: the program panics (modelled `none`). -/
theorem sanitizeChars_cons_panic {c : Char} {cs matched rest : List Char}
    (hm : matchPidAt (c :: cs) = some (matched, rest))
    (hb : takeBytesAsChars 8 matched = none) :
    sanitizeChars (c :: cs) = none := by
  unfold sanitizeChars
  simp only [List.length_cons, sanitizeCharsFuel, hm, hb]

/-- A character below 128 encodes to one UTF-8 byte. -/
theorem utf8Bytes_ascii {c : Char} (h : c.toNat < 128) : (utf8Bytes c).length = 1 := by
  unfold utf8Bytes
  simp [h]

/-- Over characters that encode to one byte each — the ASCII digits of the
Swedish ids — the 8-byte slice is exactly the first 8 characters. -/
theorem takeBytesAsChars_ascii :
    ∀ (ds rest2 : List Char), (∀ c ∈ ds, c.toNat < 128) →
      takeBytesAsChars ds.length (ds ++ rest2) = some ds := by
  intro ds
  induction ds with
  | nil => intro rest2 _; simp [takeBytesAsChars]
  | cons c ds ih =>
    intro rest2 h
    have hc : c.toNat < 128 := h c (by simp)
    simp only [List.length_cons, List.cons_append, List.append_eq, takeBytesAsChars,
      utf8Bytes_ascii hc]
    rw [if_pos (by omega), Nat.add_sub_cancel,
      ih rest2 (fun x hx => h x (List.mem_cons_of_mem _ hx))]

/-- Messages with no pid occurrence pass through the sanitizer unchanged. -/
theorem sanitizeChars_no_match :
    ∀ cs : List Char, hasPidMatch cs = false → sanitizeChars cs = some cs := by
  intro cs
  induction cs with
  | nil => intro _; rfl
  | cons c cs ih =>
    intro h
    simp only [hasPidMatch, Bool.or_eq_false_iff] at h
    cases hm : matchPidAt (c :: cs) with
    | some v =>
      rw [hm] at h
      simp at h
    | none =>
      rw [sanitizeChars_cons_none hm, ih h.2]
      rfl

set_option maxRecDepth 400000 in
/-- C7 amended: `sanitize_personal_id` replaces every occurrence of the
Unicode-digit pattern `\d{8}-\d{4}` with the first eight BYTES of the match
followed by "-****" — equal to the eight-digit date prefix whenever those
digits are ASCII, as in the Swedish ids — panics (modelled `none`) when
byte 8 splits a character, handles multiple occurrences, leaves text
outside matches unchanged, and returns a no-occurrence message
identically; the spec's examples hold. -/
theorem sanitize_personal_id_spec :
    (∀ msg : String, hasPidMatch msg.data = false → sanitize_personal_id msg = some msg) ∧
    (∀ (c : Char) (cs matched rest date_part : List Char),
      matchPidAt (c :: cs) = some (matched, rest) →
      takeBytesAsChars 8 matched = some date_part →
      sanitizeChars (c :: cs) =
        (sanitizeChars rest).map
          (fun tail => date_part ++ '-' :: '*' :: '*' :: '*' :: '*' :: tail)) ∧
    (∀ (c : Char) (cs matched rest : List Char),
      matchPidAt (c :: cs) = some (matched, rest) →
      takeBytesAsChars 8 matched = none →
      sanitizeChars (c :: cs) = none) ∧
    (∀ (d8 rest2 : List Char), d8.length = 8 → (∀ c ∈ d8, c.toNat < 128) →
      takeBytesAsChars 8 (d8 ++ rest2) = some d8) ∧
    sanitize_personal_id "Patient 19850312-2398 checked in" =
      some "Patient 19850312-**** checked in" ∧
    sanitize_personal_id "Patients 19850312-2398 and 19900204-1457" =
      some "Patients 19850312-**** and 19900204-****" := by
  refine ⟨?_, ?_, ?_, ?_, by decide, by decide⟩
  · intro msg h
    unfold sanitize_personal_id
    rw [sanitizeChars_no_match msg.data h]
    rfl
  · exact fun c cs matched rest date_part hm hb => sanitizeChars_cons_some hm hb
  · exact fun c cs matched rest hm hb => sanitizeChars_cons_panic hm hb
  · intro d8 rest2 hlen hascii
    rw [← hlen]
    exact takeBytesAsChars_ascii d8 rest2 hascii

set_option maxRecDepth 400000 in
/-- C7 counterexample: the claim's masking shape fails off ASCII.  On a
match of two-byte Arabic-Indic digits the program emits the first eight
bytes — four characters, not the eight-digit date prefix — and on
three-byte Devanagari digits byte 8 splits a character, so the program
panics instead of returning the claimed masked string. -/
theorem sanitize_unicode_divergence :
    sanitize_personal_id "٠١٢٣٤٥٦٧-١٢٣٤" = some "٠١٢٣-****" ∧
    ("٠١٢٣-****" : String) ≠ "٠١٢٣٤٥٦٧-****" ∧
    sanitize_personal_id "०१२३४५६७-१२३४" = none := by
  exact ⟨by decide, by decide, by decide⟩

/-- Witness for C7's no-occurrence case on a concrete message. -/
theorem sanitize_personal_id_spec_witness :
    Perimeter.sanitize_personal_id "no ids here" = some "no ids here" :=
  sanitize_personal_id_spec.1 "no ids here" (by decide)

/-- C8: the audit actor is `api_key:` plus the first 16 hex characters of
the SHA-256 digest of the presented X-API-Key — a truncated one-way hash,
never the raw key — and an absent header yields the non-empty sentinel
"internal". -/
theorem audit_actor_spec :
    (extract_actor_from_request none = "internal" ∧ "internal" ≠ ("" : String)) ∧
    ∀ key, extract_actor_from_request (some key) =
      String.mk ("api_key:".data ++ (sha256HexChars key).take 16) := by
  refine ⟨⟨rfl, by decide⟩, ?_⟩
  intro key
  show String.mk (("api_key:".data ++ sha256HexChars key).take 24) =
    String.mk ("api_key:".data ++ (sha256HexChars key).take 16)
  rw [List.take_append_eq_append_take,
    show "api_key:".data.take 24 = "api_key:".data from by decide,
    show 24 - "api_key:".data.length = 16 from by decide]

/-- Witness for C8 at a concrete presented key and for the absent-header
sentinel. -/
theorem audit_actor_spec_witness :
    Perimeter.extract_actor_from_request none = "internal" ∧
    Perimeter.extract_actor_from_request (some "correct_key") =
      String.mk ("api_key:".data ++ (Perimeter.sha256HexChars "correct_key").take 16) :=
  ⟨audit_actor_spec.1.1, audit_actor_spec.2 "correct_key"⟩

/-- C9 counterexample: a key of 17 two-byte characters is shorter than 32
characters, yet `Config::from_env` accepts it and returns a configuration —
the source checks `len()`, the UTF-8 byte count, which is 34 here. -/
theorem config_short_chars_accepted :
    ("ååååååååååååååååå" : String).length < 32 ∧
    Config.from_env wideKeyEnv =
      .ok ⟨"postgres://localhost/hospital", "8001", "ååååååååååååååååå",
        ["http://localhost:8000", "http://localhost:3000",
         "http://127.0.0.1:8000", "http://127.0.0.1:3000"],
        60, false, none, none, 1, 5⟩ :=
  ⟨by decide, rfl⟩

/-- C9 amended: when the API_KEY environment value is shorter than 32
BYTES (`len()` in the source — equal to the character count for ASCII
keys), `Config::from_env` never returns a configuration — it fails with an
error, so the process refuses to start serving. -/
theorem config_fail_fast (env : String → Option String) (k : String)
    (hk : env "API_KEY" = some k) (hshort : (strBytes k).length < 32) :
    ∀ cfg, Config.from_env env ≠ .ok cfg := by
  intro cfg h
  unfold Config.from_env at h
  split at h
  · simp at h
  · split at h
    · simp at h
    · rename_i api_key hak
      rw [hak] at hk
      have hkk : api_key = k := Option.some.inj hk
      split at h
      · simp at h
      · rename_i hcond
        rw [hkk] at hcond
        exact hcond hshort

/-- Witness for C9 on a concrete environment holding a 5-byte API key. -/
theorem config_fail_fast_witness :
    Perimeter.Config.from_env shortKeyEnv ≠ .ok someConfig :=
  config_fail_fast shortKeyEnv "short" (by decide) (by decide) someConfig

end Perimeter

namespace PerimeterTests

/-! Concrete evaluations cross-checked against independently computed
SHA-256 digests, covering both padding regimes (one and two chunks), and
against the repository's own unit tests. -/

set_option maxRecDepth 400000 in
example : Perimeter.hash_for_logging "19850312-2398" = "52d2937590e3beef" := by decide

set_option maxRecDepth 400000 in
example : Perimeter.hash_for_logging "" = "e3b0c44298fc1c14" := by decide

set_option maxRecDepth 400000 in
example :
    Perimeter.hash_for_logging
      "cccccccccccccccccccccccccccccccccccccccccccccccccccccccccccccccc" =
      "52b6419d27bd7f54" := by decide

set_option maxRecDepth 400000 in
example :
    Perimeter.hash_for_logging "bbbbbbbbbbbbbbbbbbbbbbbbbbbbbbbbbbbbbbbbbbbbbbbbbbbbbbbb" =
      "a5fc6e203a4c2b65" := by decide

set_option maxRecDepth 400000 in
example : Perimeter.hash_for_logging "19900101-1234" ≠ Perimeter.hash_for_logging "19850312-2398" := by
  decide

set_option maxRecDepth 400000 in
example :
    Perimeter.extract_actor_from_request (some "correct_key") = "api_key:1a46e1408fb70642" := by
  decide

example : Perimeter.constant_time_eq "test123" "test123" = true := by decide
example : Perimeter.constant_time_eq "test123" "test124" = false := by decide
example : Perimeter.constant_time_eq "short" "longer_string" = false := by decide

example :
    Perimeter.apiKeyAuthCall "correct_key" (some "wrong_key") =
      .reject ⟨401, "Invalid API key"⟩ := by decide

example :
    Perimeter.csrfCall ⟨"POST", "/suspects", some "tok_a", some "tok_b"⟩ =
      .reject ⟨403, "CSRF token validation failed", "CSRF_TOKEN_INVALID"⟩ := by decide

example : Perimeter.should_skip_csrf_check "POST" "/api/shared/suspects" = true := by decide
example : Perimeter.should_skip_csrf_check "POST" "/api/sharedx" = false := by decide

example :
    Perimeter.Config.from_env Perimeter.shortKeyEnv =
      .error "API_KEY must be at least 32 characters long" := rfl

end PerimeterTests
